import Mathlib

/-!
Verification of the RIFT-Transformers remediation pipeline.

This file shallowly embeds the JavaScript source of the repository:
the LangGraph agent pipeline (extract / classify / patch / verify
nodes), the healing-service statistics, the patch applicator, the
test-runner sanitizer and the client-side healing loop, and proves or
refutes the frozen behavioural claims about them.

External collaborators (the Gemini inference client, the Docker
sandbox, `JSON.parse`) are modelled as oracles: each embedded function
takes the collaborator's outcome as an explicit argument, and the
repository's own control flow (try/catch fallbacks, guards, string
processing, command construction) is transcribed faithfully.
-/

namespace Rift

/-! ## JavaScript string primitives

`String.prototype.includes`, case conversion and `trim` are modelled on
the character-list level so that every use is executable. -/

/-- `isPrefixL sub l` holds when `sub` is an initial segment of `l`. -/
def isPrefixL : List Char → List Char → Bool
  | [], _ => true
  | _ :: _, [] => false
  | a :: as, b :: bs => a == b && isPrefixL as bs

/-- `containsSubL sub l`: `sub` occurs contiguously somewhere in `l`
(the semantics of JavaScript `String.prototype.includes`). -/
def containsSubL (sub : List Char) : List Char → Bool
  | [] => isPrefixL sub []
  | c :: rest => isPrefixL sub (c :: rest) || containsSubL sub rest

/-- JavaScript `s.includes(sub)`. -/
def jsIncludes (s sub : String) : Bool :=
  containsSubL sub.toList s.toList

/-- JavaScript `s.trim()` (ASCII whitespace): strips leading and
trailing whitespace characters. -/
def jsTrim (s : String) : String :=
  String.mk ((((s.toList).dropWhile Char.isWhitespace).reverse.dropWhile
    Char.isWhitespace).reverse)

/-- JavaScript `s.toUpperCase()` on ASCII data. -/
def jsToUpper (s : String) : String :=
  String.mk (s.toList.map Char.toUpper)

/-- JavaScript `s.toLowerCase()` on ASCII data. -/
def jsToLower (s : String) : String :=
  String.mk (s.toList.map Char.toLower)

/-! ## Data model (the Zod state schema of the agent graph) -/

/-- One record of the `failures` array of the graph state. -/
structure Failure where
  file : String
  line : Int
  error_message : String
deriving DecidableEq, Repr

/-- One record of the `classifiedFailures` array: a failure plus the
`bug_type` produced by the classifier. -/
structure ClassifiedFailure where
  file : String
  line : Int
  error_message : String
  bug_type : String
deriving DecidableEq, Repr

/-- One record of the `generatedPatches` array. -/
structure GeneratedPatch where
  file : String
  line : Int
  error_message : String
  bug_type : String
  patch_instructions : String
  required_dashboard_output : String
deriving DecidableEq, Repr

/-- One record of the `verifiedPatches` array. -/
structure VerifiedPatch where
  file : String
  line : Int
  error_message : String
  bug_type : String
  patch_instructions : String
  required_dashboard_output : String
  verification_status : String
deriving DecidableEq, Repr

/-- The LangGraph shared state (`StateSchema` of the agent file). -/
structure PipelineState where
  logs : String
  failures : List Failure
  classifiedFailures : List ClassifiedFailure
  generatedPatches : List GeneratedPatch
  verifiedPatches : List VerifiedPatch
  finalFixes : List VerifiedPatch
  processedCount : Nat
deriving DecidableEq, Repr

/-- The initial state built by `runAgentGraph` before invoking the
graph: the raw logs and otherwise empty channels. -/
def initialState (testLogs : String) : PipelineState :=
  { logs := testLogs
    failures := []
    classifiedFailures := []
    generatedPatches := []
    verifiedPatches := []
    finalFixes := []
    processedCount := 0 }

/-! ## Per-item inference oracles

Each stage issues one inference call per input record; an oracle maps
the record's index to the settled outcome of that call.  `Except.error`
is a rejected promise (network failure, non-string content, …);
`Except.ok s` is a response whose `content` is the string `s`. -/

/-- Outcome of one patch-generation call, abstracting the JSON parse of
the response: `failed` covers a rejected call, a `JSON.parse` throw, or
a property access throwing (the per-item `catch`), `parsed` carries the
two string fields read off the parsed object. -/
inductive PatchCallResult
  | failed
  | parsed (pi rdo : String)
deriving DecidableEq, Repr

/-- Outcome of the extraction call at the typed level: `failed` is any
throw caught by `extractNode` (rejected call or unparseable JSON);
`ok fs` is a response parsing to an array of well-formed records.  The
untyped (raw JSON) behaviour is modelled separately by `extractNodeJ`. -/
inductive ExtractOutcome
  | failed
  | ok (fs : List Failure)
deriving DecidableEq, Repr

/-- `mapWithIdx f i [x0, x1, …] = [f i x0, f (i+1) x1, …]`: the indexed
map used to pair each element of a stage's input with its oracle slot
(JavaScript `Array.prototype.map` with `Promise.all` keeps one output
slot per input index). -/
def mapWithIdx (f : Nat → α → β) : Nat → List α → List β
  | _, [] => []
  | i, x :: xs => f i x :: mapWithIdx f (i + 1) xs

/-! ## The four agent nodes -/

/-- `extractNode` (typed level): on success it stores the extracted
array and its length in `processedCount`; the `catch` branch empties
`failures` and leaves `processedCount` untouched. -/
def extractNode (s : PipelineState) (eo : ExtractOutcome) : PipelineState :=
  match eo with
  | .failed => { s with failures := [] }
  | .ok fs => { s with failures := fs, processedCount := fs.length }

/-- One item of `classifyNode`'s fan-out: the response's trimmed content
becomes `bug_type`; the per-item `catch` substitutes `"UNKNOWN"`. -/
def classifyItem (f : Failure) (resp : Except String String) : ClassifiedFailure :=
  match resp with
  | .ok content =>
      { file := f.file, line := f.line, error_message := f.error_message
        bug_type := jsTrim content }
  | .error _ =>
      { file := f.file, line := f.line, error_message := f.error_message
        bug_type := "UNKNOWN" }

/-- `classifyNode`: early return on an empty `failures` array, otherwise
one classification per failure, joined by `Promise.all`. -/
def classifyNode (s : PipelineState) (o : Nat → Except String String) : PipelineState :=
  if s.failures.length = 0 then s
  else { s with classifiedFailures := mapWithIdx (fun i f => classifyItem f (o i)) 0 s.failures }

/-- One item of `patchNode`'s fan-out: the parsed response supplies
`patch_instructions` and `required_dashboard_output`; the per-item
`catch` substitutes the manual-review sentinel. -/
def patchItem (c : ClassifiedFailure) (resp : PatchCallResult) : GeneratedPatch :=
  match resp with
  | .parsed pi rdo =>
      { file := c.file, line := c.line, error_message := c.error_message
        bug_type := c.bug_type, patch_instructions := pi
        required_dashboard_output := rdo }
  | .failed =>
      { file := c.file, line := c.line, error_message := c.error_message
        bug_type := c.bug_type
        patch_instructions := "Review " ++ c.file ++ ":" ++ toString c.line
        required_dashboard_output := "Manual review needed" }

/-- `patchNode`: early return on empty `classifiedFailures`, otherwise
one patch-generation call per classified failure. -/
def patchNode (s : PipelineState) (o : Nat → PatchCallResult) : PipelineState :=
  if s.classifiedFailures.length = 0 then s
  else { s with generatedPatches :=
          mapWithIdx (fun i c => patchItem c (o i)) 0 s.classifiedFailures }

/-- One item of `verifyNode`'s fan-out: the trimmed, upper-cased
response is checked for the substring `"APPROVED"`; a rejected call
lands in the `catch` branch and yields `"PENDING_REVIEW"`. -/
def verifyItem (p : GeneratedPatch) (resp : Except String String) : VerifiedPatch :=
  match resp with
  | .ok content =>
      { file := p.file, line := p.line, error_message := p.error_message
        bug_type := p.bug_type, patch_instructions := p.patch_instructions
        required_dashboard_output := p.required_dashboard_output
        verification_status :=
          if jsIncludes (jsToUpper (jsTrim content)) "APPROVED" then "APPROVED" else "REJECTED" }
  | .error _ =>
      { file := p.file, line := p.line, error_message := p.error_message
        bug_type := p.bug_type, patch_instructions := p.patch_instructions
        required_dashboard_output := p.required_dashboard_output
        verification_status := "PENDING_REVIEW" }

/-- `verifyNode`: early return on empty `generatedPatches`; otherwise
one verification per patch, and `finalFixes` is the filter of the
verified list on status `"APPROVED"`. -/
def verifyNode (s : PipelineState) (o : Nat → Except String String) : PipelineState :=
  if s.generatedPatches.length = 0 then s
  else
    let verified := mapWithIdx (fun i p => verifyItem p (o i)) 0 s.generatedPatches
    { s with verifiedPatches := verified
             finalFixes := verified.filter (fun v => v.verification_status == "APPROVED") }

/-- `runAgentGraph`: the compiled graph is the fixed linear chain
extract → classify → patch → verify started on `initialState`. -/
def runAgentGraph (testLogs : String) (eo : ExtractOutcome)
    (co : Nat → Except String String) (po : Nat → PatchCallResult)
    (vo : Nat → Except String String) : PipelineState :=
  verifyNode (patchNode (classifyNode (extractNode (initialState testLogs) eo) co) po) vo

/-! ## Helper lemmas about the indexed map -/

theorem mapWithIdx_length (f : Nat → α → β) (i : Nat) (l : List α) :
    (mapWithIdx f i l).length = l.length := by
  induction l generalizing i with
  | nil => rfl
  | cons x xs ih => simp [mapWithIdx, ih]

theorem mapWithIdx_getElem? (f : Nat → α → β) (i k : Nat) (l : List α) :
    (mapWithIdx f i l)[k]? = (l[k]?).map (f (i + k)) := by
  induction l generalizing i k with
  | nil => simp [mapWithIdx]
  | cons x xs ih =>
    cases k with
    | zero => simp [mapWithIdx]
    | succ k =>
      simp only [mapWithIdx, List.getElem?_cons_succ, ih]
      have : i + 1 + k = i + (k + 1) := by omega
      rw [this]

/-! ## Claim C1: index alignment of the stage outputs -/

/-- Claim C1: for every input log text, every extraction outcome and
every pattern of per-item inference outcomes, the pipeline's stage
outputs are index-aligned with their inputs — `classifiedFailures`,
`generatedPatches` and `verifiedPatches` each have the length of the
preceding list — and a per-item inference failure is replaced by the
stage's sentinel record at the same index, never dropped. -/
theorem pipeline_stage_outputs_aligned (testLogs : String) (eo : ExtractOutcome)
    (co : Nat → Except String String) (po : Nat → PatchCallResult)
    (vo : Nat → Except String String) :
    (runAgentGraph testLogs eo co po vo).classifiedFailures.length =
        (runAgentGraph testLogs eo co po vo).failures.length ∧
    (runAgentGraph testLogs eo co po vo).generatedPatches.length =
        (runAgentGraph testLogs eo co po vo).classifiedFailures.length ∧
    (runAgentGraph testLogs eo co po vo).verifiedPatches.length =
        (runAgentGraph testLogs eo co po vo).generatedPatches.length ∧
    (∀ i e, i < (runAgentGraph testLogs eo co po vo).failures.length → co i = .error e →
      ((runAgentGraph testLogs eo co po vo).classifiedFailures[i]?).map
          (fun c => c.bug_type) = some "UNKNOWN") ∧
    (∀ i, i < (runAgentGraph testLogs eo co po vo).classifiedFailures.length →
        po i = .failed →
      ((runAgentGraph testLogs eo co po vo).generatedPatches[i]?).map
          (fun p => p.required_dashboard_output) = some "Manual review needed") ∧
    (∀ i e, i < (runAgentGraph testLogs eo co po vo).generatedPatches.length →
        vo i = .error e →
      ((runAgentGraph testLogs eo co po vo).verifiedPatches[i]?).map
          (fun v => v.verification_status) = some "PENDING_REVIEW") := by
  cases eo with
  | failed =>
    refine ⟨?_, ?_, ?_, ?_, ?_, ?_⟩ <;>
      simp [runAgentGraph, extractNode, classifyNode, patchNode, verifyNode, initialState]
  | ok fs =>
    by_cases hfs : fs.length = 0
    · refine ⟨?_, ?_, ?_, ?_, ?_, ?_⟩ <;>
        simp [runAgentGraph, extractNode, classifyNode, patchNode, verifyNode,
          initialState, hfs, List.length_eq_zero.mp hfs]
    · have hrun : runAgentGraph testLogs (.ok fs) co po vo =
          { logs := testLogs
            failures := fs
            classifiedFailures := mapWithIdx (fun i f => classifyItem f (co i)) 0 fs
            generatedPatches :=
              mapWithIdx (fun i c => patchItem c (po i)) 0
                (mapWithIdx (fun i f => classifyItem f (co i)) 0 fs)
            verifiedPatches :=
              mapWithIdx (fun i p => verifyItem p (vo i)) 0
                (mapWithIdx (fun i c => patchItem c (po i)) 0
                  (mapWithIdx (fun i f => classifyItem f (co i)) 0 fs))
            finalFixes :=
              (mapWithIdx (fun i p => verifyItem p (vo i)) 0
                (mapWithIdx (fun i c => patchItem c (po i)) 0
                  (mapWithIdx (fun i f => classifyItem f (co i)) 0 fs))).filter
                (fun v => v.verification_status == "APPROVED")
            processedCount := fs.length } := by
        simp [runAgentGraph, extractNode, classifyNode, patchNode, verifyNode,
          initialState, hfs, mapWithIdx_length]
      rw [hrun]
      refine ⟨by simp [mapWithIdx_length], by simp [mapWithIdx_length],
        by simp [mapWithIdx_length], ?_, ?_, ?_⟩
      · intro i e hi hco
        rw [mapWithIdx_getElem?]
        have hx : fs[i]? = some fs[i] := List.getElem?_eq_getElem hi
        rw [hx]
        simp [classifyItem, hco]
      · intro i hi hpo
        rw [mapWithIdx_getElem?, mapWithIdx_getElem?]
        rw [mapWithIdx_length] at hi
        have hx : fs[i]? = some fs[i] := List.getElem?_eq_getElem hi
        rw [hx]
        simp [patchItem, hpo]
      · intro i e hi hvo
        rw [mapWithIdx_getElem?, mapWithIdx_getElem?, mapWithIdx_getElem?]
        rw [mapWithIdx_length, mapWithIdx_length] at hi
        have hx : fs[i]? = some fs[i] := List.getElem?_eq_getElem hi
        rw [hx]
        simp [verifyItem, hvo]

/-- Witness for C1: a one-failure run with all inference calls failing,
instantiating the alignment theorem at index 0. -/
theorem pipeline_stage_outputs_aligned_witness :
    ((runAgentGraph "FAIL a.js" (ExtractOutcome.ok [⟨"a.js", 10, "TypeError: x is not defined"⟩])
        (fun _ => Except.error "offline") (fun _ => PatchCallResult.failed)
        (fun _ => Except.error "offline")).classifiedFailures[0]?).map
      (fun c => c.bug_type) = some "UNKNOWN" := by
  have h := pipeline_stage_outputs_aligned "FAIL a.js"
      (ExtractOutcome.ok [⟨"a.js", 10, "TypeError: x is not defined"⟩])
      (fun _ => Except.error "offline") (fun _ => PatchCallResult.failed)
      (fun _ => Except.error "offline")
  exact h.2.2.2.1 0 "offline" (by decide) rfl

/-! ## Claim C2: finalFixes is exactly the approved subset -/

/-- Claim C2: for every pipeline run, `finalFixes` is exactly the
filter of `verifiedPatches` on verification status `"APPROVED"`: every
element of `finalFixes` appears in `verifiedPatches` with status
Approved, and every Approved element of `verifiedPatches` appears in
`finalFixes` (the filter equality gives both directions, with order and
multiplicity). -/
theorem finalFixes_eq_approved_filter (testLogs : String) (eo : ExtractOutcome)
    (co : Nat → Except String String) (po : Nat → PatchCallResult)
    (vo : Nat → Except String String) :
    (runAgentGraph testLogs eo co po vo).finalFixes =
      (runAgentGraph testLogs eo co po vo).verifiedPatches.filter
        (fun v => v.verification_status == "APPROVED") := by
  cases eo with
  | failed =>
    simp [runAgentGraph, extractNode, classifyNode, patchNode, verifyNode, initialState]
  | ok fs =>
    by_cases hfs : fs.length = 0
    · simp [runAgentGraph, extractNode, classifyNode, patchNode, verifyNode,
        initialState, hfs, List.length_eq_zero.mp hfs]
    · simp [runAgentGraph, extractNode, classifyNode, patchNode, verifyNode,
        initialState, hfs, mapWithIdx_length]

/-! ## Claim C3: fail-closed verification -/

/-- A concrete generated patch used to probe the verifier. -/
def demoPatch : GeneratedPatch :=
  { file := "a.js", line := 10, error_message := "x is not defined"
    bug_type := "TYPE_ERROR", patch_instructions := "const x = 1"
    required_dashboard_output := "tests pass" }

/-- Counterexample to C3: the verifier checks only that the upper-cased
response CONTAINS the substring `"APPROVED"`, so the explicitly
negative response `"NOT APPROVED"` is marked `"APPROVED"`. -/
theorem not_approved_response_yields_approved :
    (verifyItem demoPatch (Except.ok "NOT APPROVED")).verification_status = "APPROVED" := by
  decide

/-- Claim C3 (amended): a patch is marked Approved exactly when the
trimmed, upper-cased inference response contains the substring
`"APPROVED"`; in particular the empty response and the literal
`"REJECTED"` are rejected, and an inference-call error yields the
`"PENDING_REVIEW"` sentinel — but a negative response that contains the
token as a substring (such as `"NOT APPROVED"`) is approved. -/
theorem verify_fail_closed_amended (p : GeneratedPatch) (resp err : String) :
    ((verifyItem p (Except.ok resp)).verification_status = "APPROVED" ↔
        jsIncludes (jsToUpper (jsTrim resp)) "APPROVED" = true) ∧
    (verifyItem p (Except.error err)).verification_status = "PENDING_REVIEW" ∧
    (verifyItem p (Except.ok "")).verification_status = "REJECTED" ∧
    (verifyItem p (Except.ok "REJECTED")).verification_status = "REJECTED" := by
  refine ⟨?_, rfl, rfl, rfl⟩
  by_cases h : jsIncludes (jsToUpper (jsTrim resp)) "APPROVED"
  · simp [verifyItem, h]
  · simp [verifyItem, h]

/-! ## Claim C6: the derived approvalRate statistic

`healTestErrors` (healingService.js) computes
`(finalFixes.length / generatedPatches.length * 100).toFixed(2) + "%"`
when `generatedPatches.length > 0` and `"N/A"` otherwise;
`formatSummaryReport` computes the same expression.  `toFixed(2)` is
modelled on exact rationals. -/

/-- JavaScript `(approved / patched * 100).toFixed(2)` for
`patched > 0`, computed on exact rationals: the percentage in
hundredths is `⌊10000·approved/patched + 1/2⌋` (round to nearest, ties
up), rendered with exactly two decimal digits.  Binary-double
representation error of the JavaScript expression at exact half-way
points is not modelled. -/
def fixed2Pct (approved patched : Nat) : String :=
  let n : Nat := (20000 * approved + patched) / (2 * patched)
  toString (n / 100) ++ "." ++
    (if n % 100 < 10 then "0" else "") ++ toString (n % 100)

/-- The `approvalRate` field of the `statistics` block built by
`healTestErrors`, as a function of `finalFixes.length` (approved) and
`generatedPatches.length` (patched). -/
def statsApprovalRate (approved patched : Nat) : String :=
  if 0 < patched then fixed2Pct approved patched ++ "%"
  else "N/A"

/-- The `approvalRate` field of `formatSummaryReport`, transcribed
independently from its own occurrence of the expression. -/
def summaryApprovalRate (approved patched : Nat) : String :=
  if 0 < patched then fixed2Pct approved patched ++ "%"
  else "N/A"

theorem append_percent_ne_na (s : String) : s ++ "%" ≠ "N/A" := by
  intro h
  have hd : s.data ++ ['%'] = ['N', '/', 'A'] := congrArg String.data h
  have h1 : (s.data ++ ['%']).getLast? = some '%' := by simp
  rw [hd] at h1
  exact absurd h1 (by decide)

/-- Claim C6: the derived `approvalRate` is `"N/A"` iff the
generated-patches list is empty; otherwise it is
`100 * approved / patched` rounded to two decimals and rendered as a
percentage string (`"0.00%"` for 1 patched and 0 approved), and the
statistics block and the summary report produce the same value. -/
theorem approval_rate_na_iff_and_agree (approved patched : Nat) :
    (statsApprovalRate approved patched = "N/A" ↔ patched = 0) ∧
    statsApprovalRate approved patched = summaryApprovalRate approved patched ∧
    (0 < patched → statsApprovalRate approved patched =
        fixed2Pct approved patched ++ "%") ∧
    statsApprovalRate 0 1 = "0.00%" := by
  refine ⟨⟨?_, ?_⟩, rfl, ?_, by decide⟩
  · intro h
    by_contra hp
    have hpos : 0 < patched := Nat.pos_of_ne_zero hp
    rw [statsApprovalRate, if_pos hpos] at h
    exact append_percent_ne_na _ h
  · intro h
    subst h
    rfl
  · intro hpos
    rw [statsApprovalRate, if_pos hpos]

/-- Witness for C6: the one-patched, zero-approved run from the spec's
scenario, rate `"0.00%"`, with the positivity hypothesis discharged at
`patched = 1`. -/
theorem approval_rate_witness :
    statsApprovalRate 0 1 = fixed2Pct 0 1 ++ "%" ∧
    statsApprovalRate 0 1 = "0.00%" :=
  ⟨(approval_rate_na_iff_and_agree 0 1).2.2.1 (by decide),
   (approval_rate_na_iff_and_agree 0 1).2.2.2⟩

/-! ## Claim C5: the client-side healing loop (`startHealingLoop`)

The loop state is `iteration` (starting at 1), the guard is
`!testsPassed && iteration <= maxIterations`.  One loop body reads the
log, calls the healing pipeline, and — when `fixesApplied` — re-runs
the tests; `setFinalStatus` calls are recorded in order (the rendered
final status is the last one set). -/

/-- The observable outcome of one loop iteration: the `catch` branch
(any thrown error), a pipeline result with no applied fixes, or applied
fixes followed by a test re-run with the given exit code. -/
inductive IterOutcome
  | healErr
  | noFixes
  | applied (exitCode : Int)
deriving DecidableEq, Repr

/-- Result of a healing-loop run: how many loop bodies ran, how many
test re-runs happened, the ordered `setFinalStatus` calls, and the
final `testsPassed` flag. -/
structure LoopResult where
  iterationsRun : Nat
  retests : Nat
  statuses : List String
  testsPassed : Bool
deriving DecidableEq, Repr

/-- The `while (!testsPassed && iteration <= maxIterations)` loop.
`fuel = maxIterations + 1 - iteration` bounds the remaining admissible
iterations; `o k` is the outcome of the body at `iteration = k`.  On
`healErr` the body sets status `error` and breaks; on `noFixes` it sets
`failed` and breaks; on `applied 0` it sets `healed` with
`testsPassed = true`; otherwise it increments `iteration`.  After the
loop, `if (!testsPassed)` a final `partial` status is set. -/
def healLoopGo (o : Nat → IterOutcome) (iteration : Nat) :
    Nat → Nat → Nat → List String → LoopResult
  | 0, iters, retests, statuses =>
      { iterationsRun := iters, retests := retests
        statuses := statuses ++ ["partial"], testsPassed := false }
  | fuel + 1, iters, retests, statuses =>
      match o iteration with
      | .healErr =>
          { iterationsRun := iters + 1, retests := retests
            statuses := statuses ++ ["error", "partial"], testsPassed := false }
      | .noFixes =>
          { iterationsRun := iters + 1, retests := retests
            statuses := statuses ++ ["failed", "partial"], testsPassed := false }
      | .applied code =>
          if code = 0 then
            { iterationsRun := iters + 1, retests := retests + 1
              statuses := statuses ++ ["healed"], testsPassed := true }
          else
            healLoopGo o (iteration + 1) fuel (iters + 1) (retests + 1) statuses

/-- `startHealingLoop` with the iteration budget as a parameter:
`iteration` starts at 1, so at most `maxIterations` bodies can run. -/
def startHealingLoop (o : Nat → IterOutcome) (maxIterations : Nat) : LoopResult :=
  healLoopGo o 1 maxIterations 0 0 []

/-- The loop as instantiated by the app component, which fixes
`const maxIterations = 5`. -/
def appHealingLoop (o : Nat → IterOutcome) : LoopResult :=
  startHealingLoop o 5

theorem healLoopGo_always_failing (o : Nat → IterOutcome)
    (h : ∀ i, ∃ c, o i = IterOutcome.applied c ∧ c ≠ 0) :
    ∀ fuel iteration iters retests statuses,
      healLoopGo o iteration fuel iters retests statuses =
        { iterationsRun := iters + fuel, retests := retests + fuel
          statuses := statuses ++ ["partial"], testsPassed := false } := by
  intro fuel
  induction fuel with
  | zero => intro iteration iters retests statuses; rfl
  | succ n ih =>
    intro iteration iters retests statuses
    obtain ⟨c, hc, hc0⟩ := h iteration
    rw [healLoopGo, hc]
    simp only [if_neg hc0]
    rw [ih]
    refine congrArg₂ (fun a b => LoopResult.mk a b _ _) (by omega) (by omega)

theorem healLoopGo_noFixes_at (o : Nat → IterOutcome) :
    ∀ fuel iteration d iters retests statuses,
      d < fuel →
      (∀ i, iteration ≤ i → i < iteration + d → ∃ c, o i = IterOutcome.applied c ∧ c ≠ 0) →
      o (iteration + d) = IterOutcome.noFixes →
      healLoopGo o iteration fuel iters retests statuses =
        { iterationsRun := iters + d + 1, retests := retests + d
          statuses := statuses ++ ["failed", "partial"], testsPassed := false } := by
  intro fuel
  induction fuel with
  | zero => intro iteration d iters retests statuses hd; omega
  | succ n ih =>
    intro iteration d iters retests statuses hd hpre hk
    cases d with
    | zero =>
      rw [healLoopGo]
      simp only [Nat.add_zero] at hk
      rw [hk]
      simp
    | succ d =>
      obtain ⟨c, hc, hc0⟩ := hpre iteration (Nat.le_refl _) (by omega)
      rw [healLoopGo, hc]
      simp only [if_neg hc0]
      have hk' : o (iteration + 1 + d) = IterOutcome.noFixes := by
        have : iteration + 1 + d = iteration + (d + 1) := by omega
        rw [this]; exact hk
      rw [ih (iteration + 1) d (iters + 1) (retests + 1) statuses (by omega)
        (fun i h1 h2 => hpre i (by omega) (by omega)) hk']
      refine congrArg₂ (fun a b => LoopResult.mk a b _ _) (by omega) (by omega)

/-- Claim C5: with iteration budget `N` and a test command that fails
on every run while fixes keep being applied, the loop performs exactly
`N` pipeline-and-apply iterations (each with one test re-run) and
terminates with the exhausted status (`partial`, logged as max
iterations reached), never performing an `N+1`-th iteration; and if the
pipeline of iteration `k` yields zero applied fixes, the loop
terminates at iteration `k` without re-running tests. -/
theorem healing_loop_bounded (N : Nat) (o : Nat → IterOutcome) :
    ((∀ i, ∃ c, o i = IterOutcome.applied c ∧ c ≠ 0) →
      startHealingLoop o N =
        { iterationsRun := N, retests := N
          statuses := ["partial"], testsPassed := false }) ∧
    (∀ k, 1 ≤ k → k ≤ N →
      (∀ i, 1 ≤ i → i < k → ∃ c, o i = IterOutcome.applied c ∧ c ≠ 0) →
      o k = IterOutcome.noFixes →
      startHealingLoop o N =
        { iterationsRun := k, retests := k - 1
          statuses := ["failed", "partial"], testsPassed := false }) := by
  constructor
  · intro h
    rw [startHealingLoop, healLoopGo_always_failing o h N 1 0 0 []]
    simp
  · intro k hk1 hkN hpre hk
    rw [startHealingLoop,
      healLoopGo_noFixes_at o N 1 (k - 1) 0 0 [] (by omega)
        (fun i h1 h2 => hpre i h1 (by omega)) (by
          have : 1 + (k - 1) = k := by omega
          rw [this]; exact hk)]
    refine congrArg₂ (fun a b => LoopResult.mk a b _ _) (by omega) (by omega)

/-- Witness for C5: budget 3 with always-applied, always-failing runs
gives exactly 3 iterations and the exhausted status; a first-iteration
pipeline with no applied fixes stops after 1 iteration with 0 re-runs. -/
theorem healing_loop_bounded_witness :
    startHealingLoop (fun _ => IterOutcome.applied 1) 3 =
      { iterationsRun := 3, retests := 3
        statuses := ["partial"], testsPassed := false } ∧
    startHealingLoop (fun _ => IterOutcome.noFixes) 3 =
      { iterationsRun := 1, retests := 0
        statuses := ["failed", "partial"], testsPassed := false } :=
  ⟨(healing_loop_bounded 3 (fun _ => IterOutcome.applied 1)).1
      (fun _ => ⟨1, rfl, by decide⟩),
   (healing_loop_bounded 3 (fun _ => IterOutcome.noFixes)).2 1 (by decide) (by decide)
      (fun i h1 h2 => absurd (Nat.lt_of_le_of_lt h1 h2) (by decide)) rfl⟩

/-! ## Claim C7: the Failure Extractor on raw (untyped) responses

`extractNode` strips markdown code fences, calls `JSON.parse` inside a
`try`, and on success stores the parsed value — whatever it is — as
`failures` (`failures: failures || []`), with
`processedCount: failures?.length || 0`.  The fence stripping plus
`JSON.parse` of the response text is abstracted into the oracle: it
either throws (caught by the node) or yields a JSON value. -/

/-- A JSON value, as produced by a successful `JSON.parse`. -/
inductive Json
  | null
  | bool (b : Bool)
  | num (n : Int)
  | str (s : String)
  | arr (xs : List Json)
  | obj (fields : List (String × Json))

/-- Outcome of the extraction call at the raw level: `failed` is a
rejected inference call or a `JSON.parse` throw; `parsed j` is a
successful parse yielding `j`. -/
inductive ExtractFetch
  | failed
  | parsed (j : Json)

/-- JavaScript falsiness of a `JSON.parse` result (`null`, `false`,
`0`, `""`); used by `failures || []`. -/
def jsFalsy : Json → Bool
  | .null => true
  | .bool b => !b
  | .num n => n == 0
  | .str s => s == ""
  | .arr _ => false
  | .obj _ => false

/-- JavaScript `v?.length` on a parsed JSON value: arrays and strings
have a `length` property, everything else gives `undefined`. -/
def jsLengthProp : Json → Option Nat
  | .arr xs => some xs.length
  | .str s => some s.length
  | _ => none

/-- Whether a JSON object has a field named `k` (used to express that a
record is missing its `line` property). -/
def jsonHasKey : Json → String → Bool
  | .obj fields, k => fields.any (fun f => f.1 == k)
  | _, _ => false

/-- The extraction-relevant slice of the raw graph state. -/
structure ExtractJState where
  failures : Json
  processedCount : Nat

/-- `extractNode` at the raw level: the `catch` branch empties
`failures` (leaving `processedCount` untouched); on a successful parse
the parsed value replaces `failures` unless it is falsy, and
`processedCount` is its `length` property defaulted to 0. -/
def extractNodeJ (st : ExtractJState) (fetch : ExtractFetch) : ExtractJState :=
  match fetch with
  | .failed => { st with failures := Json.arr [] }
  | .parsed j =>
      { failures := if jsFalsy j then Json.arr [] else j
        processedCount := (jsLengthProp j).getD 0 }

/-- Counterexample to C7: the extractor performs no structural
validation and no line-number defaulting.  A response parsing to the
(truthy) non-array value `{}` is stored as `failures` unchanged rather
than replaced by an empty list, and a parsed record that lacks a
`line` field keeps lacking it — it is not given line number 0. -/
theorem extract_passes_through_unvalidated_json :
    (extractNodeJ ⟨Json.arr [], 0⟩ (ExtractFetch.parsed (Json.obj []))).failures =
        Json.obj [] ∧
    Json.obj [] ≠ Json.arr [] ∧
    (extractNodeJ ⟨Json.arr [], 0⟩
        (ExtractFetch.parsed (Json.arr [Json.obj [("file", Json.str "a.js"),
          ("error_message", Json.str "m")]]))).failures =
      Json.arr [Json.obj [("file", Json.str "a.js"), ("error_message", Json.str "m")]] ∧
    jsonHasKey (Json.obj [("file", Json.str "a.js"), ("error_message", Json.str "m")])
      "line" = false := by
  refine ⟨rfl, ?_, rfl, rfl⟩
  intro h
  exact Json.noConfusion h

/-- Claim C7 (amended): the extractor never throws — every outcome
yields a state — and on an inference error or a parse failure (or a
falsy parse result) `failures` is the empty array; a truthy parse
result is stored in `failures` verbatim, with no structural validation
and no defaulting of missing line numbers (the prompt, not the code,
asks the model to use 0). -/
theorem extract_never_throws_amended (st : ExtractJState) (fetch : ExtractFetch) :
    (extractNodeJ st fetch).failures = Json.arr [] ∨
    ∃ j, fetch = ExtractFetch.parsed j ∧ jsFalsy j = false ∧
      (extractNodeJ st fetch).failures = j := by
  cases fetch with
  | failed => exact Or.inl rfl
  | parsed j =>
    by_cases h : jsFalsy j
    · exact Or.inl (by simp [extractNodeJ, h])
    · exact Or.inr ⟨j, rfl, by simpa using h, by simp [extractNodeJ, h]⟩

/-! ## Claim C9: the before/after comparison

`compareTestResults` counts the matches of the global case-insensitive
regex `/failed|error/gi` in `beforeResults.stdout || ""` and
`afterResults.stdout || ""` — the `stderr` field is never consulted. -/

/-- Leftmost, non-overlapping scan for the lowercase tokens `failed`
and `error`, mirroring repeated `RegExp.exec` with a global regex: at
each position try `failed`, then `error`, else advance one character;
after a match, resume after it (`skip` characters still to consume). -/
def countTokensGo : Nat → List Char → Nat
  | _, [] => 0
  | skip + 1, _ :: rest => countTokensGo skip rest
  | 0, c :: rest =>
    if isPrefixL ['f', 'a', 'i', 'l', 'e', 'd'] (c :: rest) then
      1 + countTokensGo 5 rest
    else if isPrefixL ['e', 'r', 'r', 'o', 'r'] (c :: rest) then
      1 + countTokensGo 4 rest
    else countTokensGo 0 rest

/-- `(s.match(/failed|error/gi) || []).length`: the number of
case-insensitive occurrences of `failed`/`error` in `s`. -/
def countFailTokens (s : String) : Nat :=
  countTokensGo 0 (jsToLower s).toList

/-- Captured output of one test execution (`stdout`/`stderr` may be
absent — `reRunTests` returns neither field on an execution error). -/
structure TestRun where
  stdout : Option String
  stderr : Option String
deriving DecidableEq, Repr

/-- The comparison record built by `compareTestResults`. -/
structure Comparison where
  before : Nat
  after : Nat
  improved : Bool
  improvement : Int
deriving DecidableEq, Repr

/-- `compareTestResults`: token counts of the two `stdout` fields
(defaulted to `""`), `improvement = before - after`, and
`improved = improvement > 0`. -/
def compareTestResults (beforeResults afterResults : TestRun) : Comparison :=
  let beforeFailed := countFailTokens (beforeResults.stdout.getD "")
  let afterFailed := countFailTokens (afterResults.stdout.getD "")
  let improvement : Int := (beforeFailed : Int) - (afterFailed : Int)
  { before := beforeFailed, after := afterFailed
    improved := decide (0 < improvement), improvement := improvement }

/-- Counterexample to C9: the comparison reads only `stdout`, not the
combined output.  With before = {stdout "", stderr "failed failed"} and
after = {stdout "failed", stderr ""}, the combined outputs count 2
before and 1 after — strictly fewer, so the claim requires
`improved = true` — but the code compares 0 against 1 and reports
`improved = false`. -/
theorem comparison_ignores_stderr :
    (compareTestResults ⟨some "", some "failed failed"⟩
        ⟨some "failed", some ""⟩).improved = false ∧
    countFailTokens ("" ++ "failed failed") = 2 ∧
    countFailTokens ("failed" ++ "") = 1 := by
  refine ⟨?_, ?_, ?_⟩ <;> decide

/-- Claim C9 (amended): the comparison counts case-insensitive
occurrences of `failed` and `error` in the `stdout` field of each run
only (a missing `stdout` counts as empty; `stderr` is ignored), and
`improved` holds iff the after-count is strictly lower than the
before-count. -/
theorem comparison_counts_stdout_only (beforeResults afterResults : TestRun) :
    (compareTestResults beforeResults afterResults).before =
        countFailTokens (beforeResults.stdout.getD "") ∧
    (compareTestResults beforeResults afterResults).after =
        countFailTokens (afterResults.stdout.getD "") ∧
    ((compareTestResults beforeResults afterResults).improved = true ↔
      (compareTestResults beforeResults afterResults).after <
        (compareTestResults beforeResults afterResults).before) := by
  refine ⟨rfl, rfl, ?_⟩
  simp only [compareTestResults, decide_eq_true_eq]
  omega

/-! ## Claim C10: apply success and the skip of the re-test -/

/-- Whether `executePatchInstruction` resolved or threw for one fix
(the per-fix `try`/`catch` of `applyFixesToContainer`). -/
inductive FixOutcome
  | applied
  | failed
deriving DecidableEq, Repr

/-- One entry of the `results` array of `applyFixesToContainer`. -/
structure FixRecord where
  file : String
  line : Int
  status : String
deriving DecidableEq, Repr

/-- The value returned by `applyFixesToContainer`. -/
structure ApplyResult where
  success : Bool
  appliedCount : Nat
  totalCount : Nat
  results : List FixRecord
deriving DecidableEq, Repr

/-- `applyFixesToContainer`: apply sequentially, record `APPLIED` or
`FAILED` per fix, count the `APPLIED` entries, and report
`success = successful > 0`. -/
def applyFixesToContainer (fixes : List VerifiedPatch) (o : Nat → FixOutcome) : ApplyResult :=
  let results := mapWithIdx (fun i fix =>
    match o i with
    | .applied => FixRecord.mk fix.file fix.line "APPLIED"
    | .failed => FixRecord.mk fix.file fix.line "FAILED") 0 fixes
  let successful := (results.filter (fun r => r.status == "APPLIED")).length
  { success := decide (0 < successful)
    appliedCount := successful
    totalCount := fixes.length
    results := results }

/-- The value returned by `applyFixesAndVerify`: `tested` and
`comparison` are `null` when the test re-run is skipped. -/
structure ApplyVerifyResult where
  success : Bool
  applied : ApplyResult
  tested : Option TestRun
  comparison : Option Comparison
deriving DecidableEq, Repr

/-- `applyFixesAndVerify`: apply the batch; when nothing was applied,
return immediately with `success: false` and `null` re-test and
comparison; otherwise re-run the tests (outcome `afterTestResults`,
supplied by the sandbox) and compare. -/
def applyFixesAndVerify (fixes : List VerifiedPatch) (o : Nat → FixOutcome)
    (beforeTestResults afterTestResults : TestRun) : ApplyVerifyResult :=
  let applyResult := applyFixesToContainer fixes o
  if applyResult.success then
    let comparison := compareTestResults beforeTestResults afterTestResults
    { success := comparison.improved, applied := applyResult
      tested := some afterTestResults, comparison := some comparison }
  else
    { success := false, applied := applyResult, tested := none, comparison := none }

theorem applyFixes_success_eq_decide (fixes : List VerifiedPatch) (o : Nat → FixOutcome) :
    (applyFixesToContainer fixes o).success =
      decide (0 < (applyFixesToContainer fixes o).appliedCount) := rfl

/-- Claim C10: `applyFixesToContainer` reports success iff at least one
patch was applied (partial application counts), and when no patch at
all was applied `applyFixesAndVerify` returns immediately with
`success = false` and `null` in place of the re-test result and the
comparison. -/
theorem apply_success_iff_some_applied (fixes : List VerifiedPatch) (o : Nat → FixOutcome)
    (beforeTestResults afterTestResults : TestRun) :
    ((applyFixesToContainer fixes o).success = true ↔
        1 ≤ (applyFixesToContainer fixes o).appliedCount) ∧
    ((applyFixesToContainer fixes o).appliedCount = 0 →
      applyFixesAndVerify fixes o beforeTestResults afterTestResults =
        { success := false, applied := applyFixesToContainer fixes o
          tested := none, comparison := none }) := by
  constructor
  · rw [applyFixes_success_eq_decide]
    simp only [decide_eq_true_eq]
    omega
  · intro h
    have hs : (applyFixesToContainer fixes o).success = false := by
      rw [applyFixes_success_eq_decide, h]
      rfl
    rw [applyFixesAndVerify]
    simp only [hs]
    rfl

/-- A concrete approved patch for the C10 witness. -/
def demoVerifiedPatch : VerifiedPatch :=
  { file := "a.js", line := 10, error_message := "x is not defined"
    bug_type := "TYPE_ERROR", patch_instructions := "const x = 1"
    required_dashboard_output := "tests pass", verification_status := "APPROVED" }

/-- Witness for C10: a one-fix batch whose only application throws —
nothing is applied, and the combined flow returns `success = false`
with no re-test and no comparison. -/
theorem apply_success_iff_some_applied_witness :
    applyFixesAndVerify [demoVerifiedPatch] (fun _ => FixOutcome.failed)
        ⟨some "failed", none⟩ ⟨some "", none⟩ =
      { success := false
        applied := applyFixesToContainer [demoVerifiedPatch] (fun _ => FixOutcome.failed)
        tested := none, comparison := none } :=
  (apply_success_iff_some_applied [demoVerifiedPatch] (fun _ => FixOutcome.failed)
    ⟨some "failed", none⟩ ⟨some "", none⟩).2 (by decide)

/-! ## Claims C8 and C4: patch-instruction dispatch and shell commands

`executePatchInstruction` (patchApplicator.js) routes an instruction to
the find/replace path when it contains `"→"` **or** contains
`"replace"` case-insensitively, and otherwise interpolates it into
`docker exec <container> <instruction>`.  The command strings built by
`reRunTests`, `rollbackChanges` and `commitChanges` are modelled as
well; none of these functions calls `sanitize`, which lives only in
testRunnerController.js. -/

/-- A single-quote character (ASCII 39), written by code point to keep
the shell-quoting strings readable. -/
def squote : String := String.mk [Char.ofNat 39]

/-- JavaScript `code.replace(/'/g, "'\\''")`: every single quote
becomes quote–backslash–quote–quote for the sed invocation. -/
def sedEscape (s : String) : String :=
  s.replace squote (squote ++ "\\" ++ squote ++ squote)

/-- What `executePatchInstruction` resolves to: the sed command of the
code-replacement path, a literal shell command in the container, or the
invalid-format error thrown by `applyCodePatch`. -/
inductive PatchAction
  | sedCmd (cmd : String)
  | shellCmd (cmd : String)
  | invalidPatch (msg : String)
deriving DecidableEq, Repr

/-- `splitOnCharL sep acc l`: split `l` at every occurrence of the
character `sep` (JavaScript `s.split("→")` — the separator is a single
UTF-16 code unit); `acc` is the reversed current chunk. -/
def splitOnCharL (sep : Char) : List Char → List Char → List (List Char)
  | acc, [] => [acc.reverse]
  | acc, c :: rest =>
    if c == sep then acc.reverse :: splitOnCharL sep [] rest
    else splitOnCharL sep (c :: acc) rest

/-- JavaScript `instruction.split("→")`. -/
def jsSplitArrow (s : String) : List String :=
  (splitOnCharL '→' [] s.toList).map (fun l => String.mk l)

/-- The invalid-format message thrown by `applyCodePatch` when the
split does not give exactly two parts. -/
def invalidPatchMsg : String :=
  "Invalid patch format. Expected: " ++ squote ++ "old_code → new_code" ++ squote

/-- `applyCodePatch`'s command construction: split on `"→"`, trim each
part, require exactly two parts, escape single quotes, and build
`docker exec <c> sed -i "s/'<old>'/'<new>'/g" <file>` (the sed script
wraps both sides in literal single quotes). -/
def applyCodePatchAction (containerName filePath instruction : String) : PatchAction :=
  match (jsSplitArrow instruction).map jsTrim with
  | [oldCode, newCode] =>
      PatchAction.sedCmd
        ("docker exec " ++ containerName ++ " sed -i \"s/" ++ squote ++
          sedEscape oldCode ++ squote ++ "/" ++ squote ++ sedEscape newCode ++
          squote ++ "/g\" " ++ filePath)
  | _ => PatchAction.invalidPatch invalidPatchMsg

/-- `executePatchInstruction`: content-based dispatch between the two
patch dialects. -/
def executePatchInstruction (containerName filePath instruction : String) : PatchAction :=
  if jsIncludes instruction "→" || jsIncludes (jsToLower instruction) "replace" then
    applyCodePatchAction containerName filePath instruction
  else
    PatchAction.shellCmd ("docker exec " ++ containerName ++ " " ++ instruction)

/-- The command string executed by `reRunTests`. -/
def reRunTestsCmd (containerName workDir testCommand : String) : String :=
  "docker exec " ++ containerName ++ " bash -c \"cd " ++ workDir ++ " && " ++
    testCommand ++ "\""

/-- The command string executed by `rollbackChanges`. -/
def rollbackChangesCmd (containerName workDir : String) : String :=
  "docker exec " ++ containerName ++ " bash -c \"cd " ++ workDir ++
    " && git checkout .\""

/-- The command string executed by `commitChanges` (the message sits in
single quotes, unescaped). -/
def commitChangesCmd (containerName workDir message : String) : String :=
  "docker exec " ++ containerName ++ " bash -c \"cd " ++ workDir ++
    " && git add -A && git commit -m " ++ squote ++ message ++ squote ++ "\""

/-- The allow-list test of `sanitize` (testRunnerController.js):
`/^[a-zA-Z0-9_\-./:\[\] ]+$/`. -/
def allowedChar (ch : Char) : Bool :=
  ch.isAlpha || ch.isDigit || ch == '_' || ch == '-' || ch == '.' ||
    ch == '/' || ch == ':' || ch == '[' || ch == ']' || ch == ' '

/-- Whether `sanitize` accepts the input: nonempty and every character
in the allow-list. -/
def sanitizeOk (input : String) : Bool :=
  decide (input.toList ≠ []) && input.toList.all allowedChar

/-- `sanitize`: returns the trimmed input, or throws
`Unsafe input detected`. -/
def sanitize (input : String) : Except String String :=
  if sanitizeOk input then Except.ok (jsTrim input)
  else Except.error ("Unsafe input detected: " ++ input)

theorem applyCodePatchAction_ne_shellCmd (c f i cmd : String) :
    applyCodePatchAction c f i ≠ PatchAction.shellCmd cmd := by
  rw [applyCodePatchAction]
  split <;> simp

/-- Counterexample to C8: an instruction that merely mentions the word
`replace` — with no `"→"`, hence not of the substitution form — is
still routed to the find/replace path, where it raises the
invalid-format error instead of being executed as a shell command. -/
theorem replace_keyword_routes_to_code_patch :
    jsIncludes "use the replace tool" "→" = false ∧
    executePatchInstruction "node-app" "a.js" "use the replace tool" =
      PatchAction.invalidPatch invalidPatchMsg := by
  constructor <;> decide

/-- Claim C8 (amended): the dispatch is on content, but the
find/replace path is selected iff the instruction contains `"→"` or
contains `"replace"` case-insensitively (an arrow-less instruction
mentioning replace lands there and raises the invalid-format error);
every other instruction is executed as the literal shell command
`docker exec <container> <instruction>`. -/
theorem patch_dispatch_amended (containerName filePath instruction : String) :
    ((∃ cmd, executePatchInstruction containerName filePath instruction =
        PatchAction.shellCmd cmd) ↔
      (jsIncludes instruction "→" = false ∧
        jsIncludes (jsToLower instruction) "replace" = false)) ∧
    (jsIncludes instruction "→" = false →
      jsIncludes (jsToLower instruction) "replace" = false →
      executePatchInstruction containerName filePath instruction =
        PatchAction.shellCmd ("docker exec " ++ containerName ++ " " ++ instruction)) := by
  have hbranch : ∀ (h1 : jsIncludes instruction "→" = false)
      (h2 : jsIncludes (jsToLower instruction) "replace" = false),
      executePatchInstruction containerName filePath instruction =
        PatchAction.shellCmd ("docker exec " ++ containerName ++ " " ++ instruction) := by
    intro h1 h2
    rw [executePatchInstruction, if_neg (by simp [h1, h2])]
  refine ⟨⟨?_, ?_⟩, hbranch⟩
  · rintro ⟨cmd, hcmd⟩
    rw [executePatchInstruction] at hcmd
    by_cases h1 : jsIncludes instruction "→" = true
    · rw [if_pos (by simp [h1])] at hcmd
      exact absurd hcmd (applyCodePatchAction_ne_shellCmd _ _ _ _)
    · by_cases h2 : jsIncludes (jsToLower instruction) "replace" = true
      · rw [if_pos (by simp [h2])] at hcmd
        exact absurd hcmd (applyCodePatchAction_ne_shellCmd _ _ _ _)
      · exact ⟨Bool.not_eq_true _ ▸ (Bool.eq_false_iff.mpr (fun h => h1 h)),
          Bool.eq_false_iff.mpr (fun h => h2 h)⟩
  · rintro ⟨h1, h2⟩
    exact ⟨_, hbranch h1 h2⟩

/-- Witness for C8 (amended): a plain shell instruction — no arrow, no
`replace` — is executed verbatim in the container. -/
theorem patch_dispatch_amended_witness :
    executePatchInstruction "node-app" "a.js" "npm install chalk" =
      PatchAction.shellCmd ("docker exec " ++ "node-app" ++ " " ++ "npm install chalk") :=
  (patch_dispatch_amended "node-app" "a.js" "npm install chalk").2
    (by decide) (by decide)

/-- Claim C4 (code bug): the test-runner's `sanitize` rejects the
container name `"ls; rm -rf /"`, but none of the patch-applicator shell
paths validates its inputs — the same container name is interpolated
verbatim into the `docker exec` command strings of the shell-command
patch path, the test re-run, the rollback and the commit, so the
mandatory validate-before-shell-invocation requirement does not hold. -/
theorem container_name_injection_reaches_shell :
    sanitizeOk "ls; rm -rf /" = false ∧
    executePatchInstruction "ls; rm -rf /" "a.js" "npm install chalk" =
      PatchAction.shellCmd "docker exec ls; rm -rf / npm install chalk" ∧
    reRunTestsCmd "ls; rm -rf /" "/app" "npm test" =
      "docker exec ls; rm -rf / bash -c \"cd /app && npm test\"" ∧
    rollbackChangesCmd "ls; rm -rf /" "/app" =
      "docker exec ls; rm -rf / bash -c \"cd /app && git checkout .\"" ∧
    jsIncludes (commitChangesCmd "ls; rm -rf /" "/app" "AI Fix") "; rm -rf /" = true := by
  refine ⟨?_, ?_, ?_, ?_, ?_⟩ <;> decide

end Rift
